import Mathlib

/-!
Verification development for the SniffleSDR receive pipeline
(python_cli/sniffle/sniffle_sdr.py).

The pipeline is shallowly embedded: pure stages of the source become Lean
functions, Python object state becomes explicit record passing, Python
exceptions become Except values that carry the state held at raise time,
machine arithmetic becomes Nat/Int with explicit wrapping, and floating
point time/rate arithmetic is modelled over the rationals.  External
primitives from sibling modules (resampler, FSK demodulator, sync search,
dewhitener, CRC, decoder, channelizer index map) are kept parametric or
modelled from the design document, as noted at each definition.
-/

namespace Sniffle

unseal Rat.add Rat.sub Rat.mul Rat.inv

/-- Python int() applied to a rational value: truncation toward zero,
the floor for nonnegative values and the ceiling for negative ones. -/
def pyInt (q : ℚ) : ℤ := if 0 ≤ q then q.floor else q.ceil

/-- Modelled from the spec: PHY mode constants from the constants module
(absent from src); the defined ordered set is 1M, 2M, coded S=8, coded S=2,
matching the error text in cmd_chan_aa_phy. PHY_CODED aliases coded S=8. -/
def PHY_1M : ℤ := 0

def PHY_2M : ℤ := 1

def PHY_CODED : ℤ := 2

def PHY_CODED_S2 : ℤ := 3

/-- Modelled from the spec: BLE advertising access address constant
(constants module absent from src). -/
def BLE_ADV_AA : ℕ := 0x8E89BED6

/-- Modelled from the spec: BLE advertising CRC init constant
(constants module absent from src). -/
def BLE_ADV_CRCI : ℕ := 0x555555

/-- Modelled from the spec: 24-bit bitwise reversal used for the configured
(bit-reversed) initial CRC value (crc_ble module absent from src). -/
def rbit24 (v : ℕ) : ℕ :=
  (List.range 24).foldl (fun acc i => acc ||| (((v >>> i) &&& 1) <<< (23 - i))) 0

/-- Modelled from the spec: BLE channel number to RF channel index map
(pcap module absent from src).  Standard BLE mapping, corroborated by the
source comments chan 17 = 2440 MHz and chan 12 = 2430 MHz together with
freq_from_chan rf = (f - 2402 MHz) / 2 MHz. -/
def ble_to_rf_chan (c : ℕ) : ℕ :=
  if c = 37 then 0
  else if c = 38 then 12
  else if c = 39 then 39
  else if c ≤ 10 then c + 1
  else c + 2

/-- Modelled from the spec: RF channel index to BLE channel number map
(pcap module absent from src), inverse of ble_to_rf_chan on 0..39. -/
def rf_to_ble_chan (r : ℕ) : ℕ :=
  if r = 0 then 37
  else if r = 12 then 38
  else if r = 39 then 39
  else if r ≤ 11 then r - 1
  else r + 0 - 2

/-- Session state of a SniffleSDR object: the mutable fields set in
__init__ and mutated by the cmd_* configuration methods. -/
structure SState where
  gain : ℤ
  chan : ℤ
  aa : ℕ
  phy : ℤ
  crci_rev : ℕ
  rssi_min : ℤ
  mac : Option (List ℕ)
  validate_crc : Bool
deriving DecidableEq

/-- External signal-processing primitives consumed by process_burst
(sdr_utils, whitening_ble, crc_ble modules, absent from src); the pipeline
is parametric in them, as the design document treats them as external pure
functions.  The sample type is abstract.  calc_rssi returns a rational
standing in for the float dB value. -/
structure Env (α : Type) where
  resample : List α → ℚ → ℚ → ℚ × List α
  fsk_decode : List α → ℚ → ℚ → Bool → ℚ → ℕ × List Bool
  find_sync32 : List Bool → ℕ → Option ℕ
  unpack_syms : List Bool → ℕ → List ℕ
  calc_rssi : List α → ℚ
  le_dewhiten : List ℕ → ℕ → List ℕ
  crc_ble_reverse : ℕ → List ℕ → ℕ

/-- The unit produced by process_burst via PacketMessage.from_fields:
30-bit truncated timestamp, body length, RSSI, channel, PHY, body bytes,
received CRC, CRC-mismatch flag. -/
structure RawPacket where
  ts32 : ℤ
  pLen : ℕ
  rssi : ℤ
  chan : ℕ
  phy : ℤ
  body : List ℕ
  crc_rev : ℕ
  crc_err : Bool
deriving DecidableEq

/-- Symbol rate selected from the PHY: 2 Msym/s for 2M, else 1 Msym/s
(coded PHY demodulation is unimplemented in the source). -/
def symbolRate (phy : ℤ) : ℚ := if phy = PHY_2M then 2000000 else 1000000

/-- Resampling stage of process_burst: bursts below 4 MSPS are resampled
to 4 MSPS, others pass through unchanged. -/
def pbResamp {α : Type} (env : Env α) (burst : List α) (fs : ℚ) : ℚ × List α :=
  if fs < 4000000 then env.resample burst fs 4000000 else (fs, burst)

/-- Demodulation stage of process_burst: fsk_decode applied to the
(possibly resampled) burst, yielding sample offset and soft symbols. -/
def pbDemod {α : Type} (env : Env α) (burst : List α) (fs : ℚ) (cfo : ℚ) (phy : ℤ) :
    ℕ × List Bool :=
  let rs := pbResamp env burst fs
  env.fsk_decode rs.2 rs.1 (symbolRate phy) true cfo

/-- Byte recovery stage of process_burst: unpack symbols from the sync
offset, discard the four access-address bytes, dewhiten by channel. -/
def pbData {α : Type} (env : Env α) (syms : List Bool) (sym_offset : ℕ) (chan : ℕ) :
    List ℕ :=
  env.le_dewhiten ((env.unpack_syms syms sym_offset).drop 4) chan

/-- RSSI computed in process_burst: int(calc_rssi(burst) - self.gain),
over the raw burst as passed in, before any resampling. -/
def rssiOf {α : Type} (env : Env α) (s : SState) (burst : List α) : ℤ :=
  pyInt (env.calc_rssi burst - (s.gain : ℚ))

/-- Body split of process_burst: the first length-byte + 2 dewhitened
bytes, data_dw[:data_dw[1] + 2]. -/
def pbBody (dw : List ℕ) : List ℕ := dw.take (dw[1]! + 2)

/-- CRC split of process_burst: the three dewhitened bytes that follow
the body, data_dw[data_dw[1] + 2 : data_dw[1] + 5]. -/
def pbCrcBytes (dw : List ℕ) : List ℕ := (dw.drop (dw[1]! + 2)).take 3

/-- Received CRC assembled little-endian from the three CRC bytes. -/
def pbCrcRev (dw : List ℕ) : ℕ :=
  (pbCrcBytes dw)[0]! ||| ((pbCrcBytes dw)[1]! <<< 8) ||| ((pbCrcBytes dw)[2]! <<< 16)

/-- The 30-bit truncated microsecond timestamp:
int(t_sync * 1e6) & 0x3FFFFFFF, the mask being reduction mod 2^30. -/
def pbTs32 (t_sync : ℚ) : ℤ := pyInt (t_sync * 1000000) % (2 ^ 30 : ℤ)

/-- process_burst from the source, lines 212-252: resample if below
4 MSPS, demodulate, search sync; reject without sync; reject if RSSI below
the floor; unpack and dewhiten; reject malformed lengths; split body and
CRC bytes; reject CRC mismatch when validation is enabled, otherwise flag
it; build the RawPacket.  cfo and phy carry the source defaults. -/
def process_burst {α : Type} (env : Env α) (s : SState) (chan : ℕ) (t_burst : ℚ)
    (burst : List α) (fs : ℚ) (cfo : ℚ := 0) (phy : ℤ := PHY_1M) : Option RawPacket :=
  let fs_resamp := (pbResamp env burst fs).1
  let fd := pbDemod env burst fs cfo phy
  let samp_offset := fd.1
  let syms := fd.2
  match env.find_sync32 syms s.aa with
  | none => none
  | some sym_offset =>
    let rssi := rssiOf env s burst
    if rssi < s.rssi_min then none
    else
      let t_sync : ℚ := t_burst + (samp_offset : ℚ) / fs_resamp +
        (sym_offset : ℚ) / symbolRate phy
      let data_dw := pbData env syms sym_offset chan
      if data_dw.length < 2 ∨ data_dw.length < 5 + data_dw[1]! then none
      else
        let crc_err : Bool := env.crc_ble_reverse s.crci_rev (pbBody data_dw) != pbCrcRev data_dw
        if s.validate_crc && crc_err then none
        else some { ts32 := pbTs32 t_sync, pLen := (pbBody data_dw).length, rssi := rssi,
                    chan := chan, phy := s.phy, body := pbBody data_dw,
                    crc_rev := pbCrcRev data_dw, crc_err := crc_err }

/-- Decoded link-layer message as seen by the worker loop MAC filter: an
advertisement carries an optional advertiser address AdvA; anything else
is a non-advertisement message.  Modelled from the spec (packet_decoder
module absent from src): only the AdvertMessage/AdvA shape matters to the
filter. -/
inductive DMsg where
  | advert (advA : Option (List ℕ))
  | nonAdvert (tag : ℕ)
deriving DecidableEq

/-- An item placed on the packet queue: the Python None sentinel, a
decoded message, or a RawPacket forwarded undecoded. -/
inductive QItem where
  | sentinel
  | decoded (m : DMsg)
  | raw (p : RawPacket)
deriving DecidableEq

/-- Python truthiness of an optional byte string: None and the empty
byte string are falsy, any other byte string is truthy. -/
def bytesTruthy : Option (List ℕ) → Bool
  | none => false
  | some l => !l.isEmpty

/-- Worker-loop handling of one process_burst result, source lines
193-205: DPacketMessage.decode is attempted on the result object with a
catch-all; on any exception dpkt falls back to the result object itself;
an AdvertMessage with non-null AdvA is dropped when a truthy MAC filter
is set and the address differs; whatever survives is enqueued.  Modelled
from the spec (packet_decoder module absent from src): decode reads
attributes of its packet argument, so invoking it on the null object
raises, and the null object is not an AdvertMessage; hence when
process_burst returned none, dpkt is the null object and the null object
is enqueued. -/
def worker_handle (decode : RawPacket → Except Unit DMsg) (mac : Option (List ℕ))
    (pkt : Option RawPacket) : List QItem :=
  match pkt with
  | none => [QItem.sentinel]
  | some p =>
    match decode p with
    | Except.error _ => [QItem.raw p]
    | Except.ok m =>
      match m with
      | DMsg.advert (some a) =>
        match mac with
        | some mb => if mb ≠ [] ∧ a ≠ mb then [] else [QItem.decoded m]
        | none => [QItem.decoded m]
      | _ => [QItem.decoded m]

/-- One iteration of the inner burst loop of _recv_worker, lines 189-205:
process_burst is invoked with channel, burst time, burst, decimated rate
and CFO only, leaving phy at its default, and the result is handled. -/
def worker_burst {α : Type} (env : Env α) (decode : RawPacket → Except Unit DMsg)
    (s : SState) (c : ℕ) (t_burst : ℚ) (burst : List α) (fs_decim cfo : ℚ) : List QItem :=
  worker_handle decode s.mac (process_burst env s c t_burst burst fs_decim cfo)

/-- The whole inner burst loop over the bursts returned by the detector,
lines 189-205: each burst is stamped t_start + start_idx / fs_decim and
processed in order, enqueued items accumulating in FIFO order. -/
def worker_bursts {α : Type} (env : Env α) (decode : RawPacket → Except Unit DMsg)
    (s : SState) (c : ℕ) (t_start : ℚ) (bursts : List (ℕ × List α))
    (fs_decim cfo : ℚ) : List QItem :=
  bursts.foldl
    (fun acc sb =>
      acc ++ worker_burst env decode s c (t_start + (sb.1 : ℚ) / fs_decim) sb.2 fs_decim cfo)
    []

/-- Lifecycle state observable from cancel_recv: the worker_running flag
and the contents of the packet queue, oldest first. -/
structure LoopState where
  worker_running : Bool
  pktq : List QItem
deriving DecidableEq

/-- cancel_recv, source lines 265-269: when the worker is running, clear
the running flag (the join of the worker thread is a real-time step with
no effect on this state) and put the None sentinel on the queue; when it
is not running, do nothing. -/
def cancel_recv (l : LoopState) : LoopState :=
  if l.worker_running then { worker_running := false, pktq := l.pktq ++ [QItem.sentinel] }
  else l

/-- Configuration errors raised by the cmd_* methods and setup_sniffer:
ValueError or UsageError with a message. -/
inductive CfgErr where
  | valueError (msg : String)
  | usageError (msg : String)
deriving DecidableEq

/-- cmd_chan_aa_phy, source lines 95-103: validate channel 0..39 and PHY
within the four defined modes, then set chan, aa, phy and the bit-reversed
CRC init.  An error carries the session state held at raise time; both
checks precede every field write, so a raise carries the input state.
The SDR retune that follows touches hardware only, not session state. -/
def cmd_chan_aa_phy (s : SState) (chan : ℤ) (aa : ℕ) (phy : ℤ) (crci : ℕ) :
    Except (CfgErr × SState) SState :=
  if ¬(0 ≤ chan ∧ chan ≤ 39) then
    Except.error (CfgErr.valueError "Channel must be between 0 and 39", s)
  else if ¬(PHY_1M ≤ phy ∧ phy ≤ PHY_CODED_S2) then
    Except.error (CfgErr.valueError "PHY must be one of the four defined modes", s)
  else
    Except.ok { s with chan := chan, aa := aa, phy := phy, crci_rev := rbit24 crci }

/-- cmd_rssi, source lines 110-111: stored verbatim, no validation. -/
def cmd_rssi (s : SState) (rssi : ℤ) : SState := { s with rssi_min := rssi }

/-- cmd_mac, source lines 114-120: None clears the filter; otherwise the
filter must be exactly 6 bytes; the length check precedes the write. -/
def cmd_mac (s : SState) (mac_bytes : Option (List ℕ)) : Except (CfgErr × SState) SState :=
  match mac_bytes with
  | none => Except.ok { s with mac := none }
  | some m =>
    if m.length ≠ 6 then Except.error (CfgErr.valueError "MAC must be 6 bytes", s)
    else Except.ok { s with mac := some m }

/-- cmd_crc_valid, source lines 122-123: stored verbatim. -/
def cmd_crc_valid (s : SState) (validate : Bool) : SState := { s with validate_crc := validate }

/-- Modelled from the spec: the recognized sniffing modes of the
SnifferMode enum (constants module absent from src); the design document
speaks of a finite set of recognized modes, modelled as three. -/
def snifferModes : List ℕ := [0, 1, 2]

/-- Arguments of setup_sniffer that the validation logic reads. -/
structure SnifferArgs where
  mode : ℕ
  chan : ℤ
  targ_mac : Option (List ℕ)
  targ_irk : Option (List ℕ)
  hop3 : Bool
  ext_adv : Bool
  coded_phy : Bool
  rssi_min : ℤ
  validate_crc : Bool

/-- setup_sniffer, source lines 271-317: validate the mode; in wideband
(channelizer) mode override the channel with the session channel,
otherwise require a primary advertising channel 37..39; reject both MAC
and IRK filters together, hop-by-three without a target, and coded PHY
without extended advertising; then apply channel/AA/PHY, RSSI floor, MAC
filter (clearing it when no target MAC; the IRK branch is a pass), and
the CRC toggle.  Errors carry the session state held at raise time. -/
def setup_sniffer (s : SState) (use_channelizer : Bool) (a : SnifferArgs) :
    Except (CfgErr × SState) SState :=
  if a.mode ∉ snifferModes then
    Except.error (CfgErr.valueError "Invalid mode requested", s)
  else
    let chan : ℤ := if use_channelizer then s.chan else a.chan
    if ¬use_channelizer ∧ ¬(37 ≤ a.chan ∧ a.chan ≤ 39) then
      Except.error (CfgErr.valueError "Invalid primary advertising channel", s)
    else if bytesTruthy a.targ_mac ∧ bytesTruthy a.targ_irk then
      Except.error (CfgErr.usageError "Cannot specify both target MAC and IRK", s)
    else if a.hop3 ∧ ¬(bytesTruthy a.targ_mac ∨ bytesTruthy a.targ_irk) then
      Except.error (CfgErr.usageError "Must specify a target for advertising channel hop", s)
    else if a.coded_phy ∧ ¬a.ext_adv then
      Except.error (CfgErr.usageError "Extended advertising needed for coded PHY", s)
    else
      match cmd_chan_aa_phy s chan BLE_ADV_AA (if a.coded_phy then PHY_CODED else PHY_1M)
        BLE_ADV_CRCI with
      | Except.error e => Except.error e
      | Except.ok s1 =>
        let s2 := cmd_rssi s1 a.rssi_min
        match (if bytesTruthy a.targ_mac then cmd_mac s2 a.targ_mac
               else if bytesTruthy a.targ_irk then Except.ok s2
               else cmd_mac s2 none) with
        | Except.error e => Except.error e
        | Except.ok s3 => Except.ok (cmd_crc_valid s3 a.validate_crc)

/-- Number of channelizer channels, source line 133:
int(fs / 2e6 + 0.5). -/
def numChannels (fs : ℚ) : ℕ := (fs / 2000000 + 1 / 2).floor.toNat

/-- Per-channel RF-bin error, source lines 134-135:
fs_decim - 2e6 with fs_decim = fs / num_channels. -/
def chanErr (fs : ℚ) : ℚ := fs / (numChannels fs : ℚ) - 2000000

/-- Half-width of the relative RF offset range, source line 136:
(num_channels - 1) // 2 with Python floor division. -/
def chanMax (fs : ℚ) : ℤ := Int.fdiv ((numChannels fs : ℤ) - 1) 2

/-- The relative RF offsets iterated by the plan loop, source line 141:
range(-chan_max, chan_max + 1). -/
def relOffsets (fs : ℚ) : List ℤ :=
  (List.range (2 * chanMax fs + 1).toNat).map (fun k : ℕ => (k : ℤ) - chanMax fs)

/-- One iteration of the plan loop, source lines 141-146: look up the
channelizer output index of the relative offset; when the absolute RF
index is within 0..39, record its BLE channel number and the CFO
correction at that output index, otherwise change nothing. -/
def chanPlanStep (chanIdx : ℤ → ℕ) (rfCenter : ℕ) (chan_err : ℚ)
    (st : List (Option ℕ) × List ℚ) (rf_rel : ℤ) : List (Option ℕ) × List ℚ :=
  let idx := chanIdx rf_rel
  let rf_abs : ℤ := (rfCenter : ℤ) + rf_rel
  if 0 ≤ rf_abs ∧ rf_abs < 40 then
    (st.1.set idx (some (rf_to_ble_chan rf_abs.toNat)), st.2.set idx (-rf_rel * chan_err))
  else st

/-- The wideband channel plan computed at worker start, source lines
132-146: channels initialized to None and CFO corrections to 0, then the
plan loop over all relative offsets.  chanIdx stands for the channelizer
output index map chan_idx (channelizer module absent from src), kept
parametric; the spec treats it as the channelizer output index of a
relative offset. -/
def chanPlan (chanIdx : ℤ → ℕ) (fs : ℚ) (chan : ℕ) : List (Option ℕ) × List ℚ :=
  (relOffsets fs).foldl
    (chanPlanStep chanIdx (ble_to_rf_chan chan) (chanErr fs))
    (List.replicate (numChannels fs) none, List.replicate (numChannels fs) (0 : ℚ))

/-- Concrete byte sequence standing for an unpack_syms output in test
fixtures: four access-address bytes, then a 2-byte header declaring one
payload byte, one payload byte, and three CRC bytes. -/
def okBytes : List ℕ := [0, 0, 0, 0, 0, 1, 10, 170, 187, 204]

/-- Concrete primitive environment whose stages all succeed: sync at
offset 0, fixed unpacked bytes, identity dewhitening, RSSI -50 dB, and a
CRC primitive returning the configured init value so that the session CRC
init selects match or mismatch. -/
def envOk : Env Unit where
  resample := fun b _ t => (t, b)
  fsk_decode := fun _ _ _ _ _ => (0, [])
  find_sync32 := fun _ _ => some 0
  unpack_syms := fun _ _ => okBytes
  calc_rssi := fun _ => -50
  le_dewhiten := fun d _ => d
  crc_ble_reverse := fun crci _ => crci

/-- Variant of envOk in which no access-address sync is ever found. -/
def envNoSync : Env Unit := { envOk with find_sync32 := fun _ _ => none }

/-- Variant of envOk whose dewhitened data is too short: the declared
length byte 9 needs 14 bytes but only 2 are present. -/
def envShort : Env Unit := { envOk with unpack_syms := fun _ _ => [0, 0, 0, 0, 0, 9] }

/-- The dewhitened bytes produced by envOk fixtures. -/
def dwOk : List ℕ := [0, 1, 10, 170, 187, 204]

/-- Session state fixture: defaults of __init__ with the CRC init chosen
to match the envOk received CRC 170 + 187*2^8 + 204*2^16. -/
def sOk : SState where
  gain := 10
  chan := 37
  aa := BLE_ADV_AA
  phy := PHY_1M
  crci_rev := 13417386
  rssi_min := -128
  mac := none
  validate_crc := true

/-- Session state fixture whose configured CRC init differs from the
received CRC of the envOk fixture. -/
def sBad : SState := { sOk with crci_rev := 0 }

/-- sBad with CRC validation disabled. -/
def sBadNoVal : SState := { sBad with validate_crc := false }

/-- sOk with the session PHY set to 2M. -/
def s2M : SState := { sOk with phy := PHY_2M }

/-- The packet the envOk fixture produces under s2M. -/
def pktOk2M : RawPacket where
  ts32 := 0
  pLen := 3
  rssi := -60
  chan := 37
  phy := PHY_2M
  body := [0, 1, 10]
  crc_rev := 13417386
  crc_err := false

/-- Decoder fixture that always fails. -/
def decodeFail : RawPacket → Except Unit DMsg := fun _ => Except.error ()

/-- setup_sniffer argument fixture: a valid baseline request. -/
def aBase : SnifferArgs where
  mode := 0
  chan := 37
  targ_mac := none
  targ_irk := none
  hop3 := false
  ext_adv := false
  coded_phy := false
  rssi_min := -128
  validate_crc := true

/-- Channelizer output index fixture for a three-channel plan. -/
def wIdx : ℤ → ℕ := fun r => (r % 3).toNat

/-- sOk with the RSSI floor exactly at the computed RSSI of the envOk
fixture burst. -/
def sFloor : SState := { sOk with rssi_min := -60 }

/-- sOk with the RSSI floor one decibel above the computed RSSI of the
envOk fixture burst. -/
def sAbove : SState := { sOk with rssi_min := -59 }

/-- The packet the envOk fixture produces under sOk. -/
def pktOk : RawPacket where
  ts32 := 0
  pLen := 3
  rssi := -60
  chan := 37
  phy := PHY_1M
  body := [0, 1, 10]
  crc_rev := 13417386
  crc_err := false

theorem pb_no_sync {α : Type} (env : Env α) (s : SState) (chan : ℕ) (t_burst : ℚ)
    (burst : List α) (fs cfo : ℚ) (phy : ℤ)
    (h : env.find_sync32 (pbDemod env burst fs cfo phy).2 s.aa = none) :
    process_burst env s chan t_burst burst fs cfo phy = none := by
  simp only [process_burst, h]

theorem pb_of_sync {α : Type} (env : Env α) (s : SState) (chan : ℕ) (t_burst : ℚ)
    (burst : List α) (fs cfo : ℚ) (phy : ℤ) (so : ℕ)
    (hsync : env.find_sync32 (pbDemod env burst fs cfo phy).2 s.aa = some so) :
    process_burst env s chan t_burst burst fs cfo phy =
      (if rssiOf env s burst < s.rssi_min then none
       else
        let dw := pbData env (pbDemod env burst fs cfo phy).2 so chan
        if dw.length < 2 ∨ dw.length < 5 + dw[1]! then none
        else
          let crc_err : Bool := env.crc_ble_reverse s.crci_rev (pbBody dw) != pbCrcRev dw
          if s.validate_crc && crc_err then none
          else some { ts32 := pbTs32 (t_burst + ((pbDemod env burst fs cfo phy).1 : ℚ) /
                        (pbResamp env burst fs).1 + (so : ℚ) / symbolRate phy),
                      pLen := (pbBody dw).length, rssi := rssiOf env s burst, chan := chan,
                      phy := s.phy, body := pbBody dw, crc_rev := pbCrcRev dw,
                      crc_err := crc_err }) := by
  simp only [process_burst, hsync]

/-- C1: a burst the pipeline rejects makes process_burst return none
without raising, as claimed; but the worker loop does not discard it: the
null result reaches the decoder attempt and the queue put, so the None
sentinel is pushed onto the packet queue for every rejected burst,
contradicting the claim that nothing is pushed. -/
theorem c1_rejected_burst_pushes_sentinel {α : Type} (env : Env α)
    (decode : RawPacket → Except Unit DMsg) (s : SState) (c : ℕ) (t : ℚ)
    (burst : List α) (fs cfo : ℚ)
    (hrej : process_burst env s c t burst fs cfo = none) :
    worker_burst env decode s c t burst fs cfo = [QItem.sentinel] ∧
      worker_burst env decode s c t burst fs cfo ≠ [] := by
  unfold worker_burst
  rw [hrej]
  exact ⟨rfl, by simp [worker_handle]⟩

/-- C1 witness: a concrete burst with no sync is rejected by
process_burst, yet the worker enqueues the sentinel for it. -/
theorem c1_rejected_burst_pushes_sentinel_witness :
    process_burst envNoSync sOk 37 0 ([] : List Unit) 4000000 0 = none ∧
    worker_burst envNoSync decodeFail sOk 37 0 ([] : List Unit) 4000000 0 = [QItem.sentinel] ∧
    worker_burst envNoSync decodeFail sOk 37 0 ([] : List Unit) 4000000 0 ≠ [] := by
  have hrej : process_burst envNoSync sOk 37 0 ([] : List Unit) 4000000 0 = none :=
    pb_no_sync envNoSync sOk 37 0 [] 4000000 0 PHY_1M rfl
  have h := c1_rejected_burst_pushes_sentinel envNoSync decodeFail sOk 37 0 [] 4000000 0 hrej
  exact ⟨hrej, h.1, h.2⟩

/-- C2: at the CRC stage of process_burst, a computed CRC differing from
the received CRC rejects the burst when validation is enabled and yields
a packet with crc_err true when it is disabled; agreeing CRCs yield a
packet with crc_err false. -/
theorem c2_crc_policy {α : Type} (env : Env α) (s : SState) (chan : ℕ) (t : ℚ)
    (burst : List α) (fs cfo : ℚ) (phy : ℤ) (so : ℕ) (dw : List ℕ)
    (hsync : env.find_sync32 (pbDemod env burst fs cfo phy).2 s.aa = some so)
    (hrssi : ¬rssiOf env s burst < s.rssi_min)
    (hdw : dw = pbData env (pbDemod env burst fs cfo phy).2 so chan)
    (hlen : ¬(dw.length < 2 ∨ dw.length < 5 + dw[1]!)) :
    (env.crc_ble_reverse s.crci_rev (pbBody dw) ≠ pbCrcRev dw →
      (s.validate_crc = true → process_burst env s chan t burst fs cfo phy = none) ∧
      (s.validate_crc = false →
        ∃ p, process_burst env s chan t burst fs cfo phy = some p ∧ p.crc_err = true)) ∧
    (env.crc_ble_reverse s.crci_rev (pbBody dw) = pbCrcRev dw →
      ∃ p, process_burst env s chan t burst fs cfo phy = some p ∧ p.crc_err = false) := by
  subst hdw
  rw [pb_of_sync env s chan t burst fs cfo phy so hsync]
  simp only [if_neg hrssi, if_neg hlen]
  constructor
  · intro hne
    have hb : (env.crc_ble_reverse s.crci_rev
        (pbBody (pbData env (pbDemod env burst fs cfo phy).2 so chan)) !=
        pbCrcRev (pbData env (pbDemod env burst fs cfo phy).2 so chan)) = true :=
      bne_iff_ne.mpr hne
    constructor
    · intro hv
      simp [hv, hb]
    · intro hv
      rw [hv]
      exact ⟨_, rfl, hb⟩
  · intro heq
    have hb : (env.crc_ble_reverse s.crci_rev
        (pbBody (pbData env (pbDemod env burst fs cfo phy).2 so chan)) !=
        pbCrcRev (pbData env (pbDemod env burst fs cfo phy).2 so chan)) = false := by
      simp [heq]
    rw [hb]
    simp only [Bool.and_false]
    exact ⟨_, rfl, rfl⟩

/-- C2 witness: with the fixture environment, a CRC mismatch under
enabled validation rejects, under disabled validation flags, and a CRC
match produces an unflagged packet. -/
theorem c2_crc_policy_witness :
    process_burst envOk sBad 37 0 ([] : List Unit) 4000000 0 PHY_1M = none ∧
    (∃ p, process_burst envOk sBadNoVal 37 0 ([] : List Unit) 4000000 0 PHY_1M = some p ∧
      p.crc_err = true) ∧
    (∃ p, process_burst envOk sOk 37 0 ([] : List Unit) 4000000 0 PHY_1M = some p ∧
      p.crc_err = false) := by
  have h1 := c2_crc_policy envOk sBad 37 0 [] 4000000 0 PHY_1M 0 dwOk (by decide) (by decide)
    (by decide) (by decide)
  have h2 := c2_crc_policy envOk sBadNoVal 37 0 [] 4000000 0 PHY_1M 0 dwOk (by decide)
    (by decide) (by decide) (by decide)
  have h3 := c2_crc_policy envOk sOk 37 0 [] 4000000 0 PHY_1M 0 dwOk (by decide) (by decide)
    (by decide) (by decide)
  exact ⟨(h1.1 (by decide)).1 rfl, (h2.1 (by decide)).2 rfl, h3.2 (by decide)⟩

/-- C3: RSSI gating is boundary inclusive: an RSSI strictly below the
configured floor rejects the burst, while an RSSI exactly at the floor
passes the gate and, when the later stages also pass, yields a packet
whose RSSI field equals the floor; the RSSI is computed by rssiOf from
the raw pre-resample burst minus the configured gain. -/
theorem c3_rssi_boundary {α : Type} (env : Env α) (s : SState) (chan : ℕ) (t : ℚ)
    (burst : List α) (fs cfo : ℚ) (phy : ℤ) (so : ℕ) (dw : List ℕ)
    (hsync : env.find_sync32 (pbDemod env burst fs cfo phy).2 s.aa = some so)
    (hdw : dw = pbData env (pbDemod env burst fs cfo phy).2 so chan) :
    (rssiOf env s burst < s.rssi_min → process_burst env s chan t burst fs cfo phy = none) ∧
    (rssiOf env s burst = s.rssi_min →
      ¬(dw.length < 2 ∨ dw.length < 5 + dw[1]!) →
      env.crc_ble_reverse s.crci_rev (pbBody dw) = pbCrcRev dw →
      ∃ p, process_burst env s chan t burst fs cfo phy = some p ∧
        p.rssi = s.rssi_min ∧ p.rssi = rssiOf env s burst) := by
  subst hdw
  rw [pb_of_sync env s chan t burst fs cfo phy so hsync]
  constructor
  · intro hlt
    simp [if_pos hlt]
  · intro heq hlen hcrc
    have hrssi : ¬rssiOf env s burst < s.rssi_min := by rw [heq]; exact lt_irrefl _
    have hb : (env.crc_ble_reverse s.crci_rev
        (pbBody (pbData env (pbDemod env burst fs cfo phy).2 so chan)) !=
        pbCrcRev (pbData env (pbDemod env burst fs cfo phy).2 so chan)) = false := by
      simp [hcrc]
    simp only [if_neg hrssi, if_neg hlen, hb, Bool.and_false]
    exact ⟨_, rfl, heq, rfl⟩

/-- C3 witness: with the floor exactly at the computed RSSI a packet is
produced carrying that RSSI; with the floor one decibel higher the burst
is rejected. -/
theorem c3_rssi_boundary_witness :
    process_burst envOk sAbove 37 0 ([] : List Unit) 4000000 0 PHY_1M = none ∧
    (∃ p, process_burst envOk sFloor 37 0 ([] : List Unit) 4000000 0 PHY_1M = some p ∧
      p.rssi = sFloor.rssi_min ∧ p.rssi = rssiOf envOk sFloor []) := by
  have h1 := c3_rssi_boundary envOk sAbove 37 0 [] 4000000 0 PHY_1M 0 dwOk (by decide) (by decide)
  have h2 := c3_rssi_boundary envOk sFloor 37 0 [] 4000000 0 PHY_1M 0 dwOk (by decide) (by decide)
  exact ⟨h1.1 (by decide), h2.2 (by decide) (by decide) (by decide)⟩

/-- C4: after dewhitening, the burst is rejected at the length gate
exactly when the dewhitened length is below 2 or below 5 plus the length
byte; when the gate passes, any produced packet carries exactly the first
length-byte + 2 dewhitened bytes as body and the following 3 bytes as
received CRC, and the only remaining rejection is a CRC mismatch under
enabled validation. -/
theorem c4_length_gate {α : Type} (env : Env α) (s : SState) (chan : ℕ) (t : ℚ)
    (burst : List α) (fs cfo : ℚ) (phy : ℤ) (so : ℕ) (dw : List ℕ)
    (hsync : env.find_sync32 (pbDemod env burst fs cfo phy).2 s.aa = some so)
    (hrssi : ¬rssiOf env s burst < s.rssi_min)
    (hdw : dw = pbData env (pbDemod env burst fs cfo phy).2 so chan) :
    ((dw.length < 2 ∨ dw.length < 5 + dw[1]!) →
      process_burst env s chan t burst fs cfo phy = none) ∧
    (¬(dw.length < 2 ∨ dw.length < 5 + dw[1]!) →
      (∀ p, process_burst env s chan t burst fs cfo phy = some p →
        p.body = dw.take (dw[1]! + 2) ∧ p.crc_rev = pbCrcRev dw ∧
        pbCrcBytes dw = (dw.drop (dw[1]! + 2)).take 3) ∧
      (process_burst env s chan t burst fs cfo phy = none →
        s.validate_crc = true ∧
        env.crc_ble_reverse s.crci_rev (pbBody dw) ≠ pbCrcRev dw)) := by
  subst hdw
  rw [pb_of_sync env s chan t burst fs cfo phy so hsync]
  simp only [if_neg hrssi]
  constructor
  · intro hlen
    simp [if_pos hlen]
  · intro hlen
    simp only [if_neg hlen]
    constructor
    · intro p hp
      by_cases hc : (s.validate_crc && (env.crc_ble_reverse s.crci_rev
          (pbBody (pbData env (pbDemod env burst fs cfo phy).2 so chan)) !=
          pbCrcRev (pbData env (pbDemod env burst fs cfo phy).2 so chan))) = true
      · rw [if_pos hc] at hp
        cases hp
      · rw [if_neg hc] at hp
        simp only [Option.some.injEq] at hp
        subst hp
        exact ⟨rfl, rfl, rfl⟩
    · intro hnone
      by_cases hc : (s.validate_crc && (env.crc_ble_reverse s.crci_rev
          (pbBody (pbData env (pbDemod env burst fs cfo phy).2 so chan)) !=
          pbCrcRev (pbData env (pbDemod env burst fs cfo phy).2 so chan))) = true
      · rcases Bool.and_eq_true_iff.mp hc with ⟨hv, hb⟩
        exact ⟨hv, bne_iff_ne.mp hb⟩
      · rw [if_neg hc] at hnone
        cases hnone

/-- C4 witness: a dewhitened burst of length 2 declaring 9 payload bytes
is rejected; the success fixture passes the gate and its packet carries
exactly the declared body and the 3 trailing CRC bytes. -/
theorem c4_length_gate_witness :
    process_burst envShort sOk 37 0 ([] : List Unit) 4000000 0 PHY_1M = none ∧
    (pktOk.body = dwOk.take (dwOk[1]! + 2) ∧ pktOk.crc_rev = pbCrcRev dwOk ∧
      pbCrcBytes dwOk = (dwOk.drop (dwOk[1]! + 2)).take 3) := by
  have h1 := c4_length_gate envShort sOk 37 0 [] 4000000 0 PHY_1M 0 [0, 9] (by decide)
    (by decide) (by decide)
  have h2 := c4_length_gate envOk sOk 37 0 [] 4000000 0 PHY_1M 0 dwOk (by decide) (by decide)
    (by decide)
  exact ⟨h1.1 (by decide), (h2.2 (by decide)).1 pktOk (by decide)⟩

/-- C10: the worker invokes process_burst with the PHY argument left at
its default PHY_1M, so demodulation uses the 1 Msym/s symbol rate even
when the session PHY is 2M, while any produced packet is tagged with the
session PHY field. -/
theorem c10_worker_default_phy {α : Type} (env : Env α)
    (decode : RawPacket → Except Unit DMsg) (s : SState) (c : ℕ) (t : ℚ)
    (burst : List α) (fs cfo : ℚ) :
    worker_burst env decode s c t burst fs cfo =
      worker_handle decode s.mac (process_burst env s c t burst fs cfo PHY_1M) ∧
    symbolRate PHY_1M = 1000000 ∧
    (s.phy = PHY_2M → symbolRate s.phy ≠ symbolRate PHY_1M) ∧
    (∀ p, process_burst env s c t burst fs cfo = some p → p.phy = s.phy) := by
  refine ⟨rfl, by decide, ?_, ?_⟩
  · intro h
    rw [h]
    decide
  · intro p hp
    simp only [process_burst] at hp
    split at hp
    · cases hp
    · split at hp
      · cases hp
      · split at hp
        · cases hp
        · split at hp
          · cases hp
          · simp only [Option.some.injEq] at hp
            subst hp
            rfl

/-- C10 witness: under a session PHY of 2M the fixture burst is still
demodulated with the default 1 Msym/s rate and the produced packet is
tagged PHY_2M. -/
theorem c10_worker_default_phy_witness :
    s2M.phy = PHY_2M ∧
    symbolRate PHY_1M = 1000000 ∧
    symbolRate s2M.phy ≠ symbolRate PHY_1M ∧
    process_burst envOk s2M 37 0 ([] : List Unit) 4000000 0 = some pktOk2M ∧
    pktOk2M.phy = s2M.phy := by
  have h := c10_worker_default_phy envOk decodeFail s2M 37 0 ([] : List Unit) 4000000 0
  have hp : process_burst envOk s2M 37 0 ([] : List Unit) 4000000 0 = some pktOk2M := by decide
  exact ⟨rfl, h.2.1, h.2.2.1 rfl, hp, h.2.2.2 pktOk2M hp⟩

/-- C7: cancel_recv is idempotent: when the worker is not running it is a
no-op that changes nothing and enqueues nothing; a second consecutive
cancel is a no-op; when the worker is running it clears the running flag
and appends exactly one sentinel to the queue. -/
theorem c7_cancel_idempotent (l : LoopState) :
    (l.worker_running = false → cancel_recv l = l) ∧
    cancel_recv (cancel_recv l) = cancel_recv l ∧
    (l.worker_running = true →
      (cancel_recv l).worker_running = false ∧
      (cancel_recv l).pktq = l.pktq ++ [QItem.sentinel]) := by
  cases hr : l.worker_running
  · simp [cancel_recv, hr]
  · refine ⟨by simp [hr], ?_, fun _ => by simp [cancel_recv, hr]⟩
    have h1 : cancel_recv l = { worker_running := false, pktq := l.pktq ++ [QItem.sentinel] } := by
      simp [cancel_recv, hr]
    rw [h1]
    simp [cancel_recv]

/-- C7 witness: concrete idle and running lifecycle states. -/
theorem c7_cancel_idempotent_witness :
    cancel_recv { worker_running := false, pktq := [] } =
      { worker_running := false, pktq := [] } ∧
    cancel_recv (cancel_recv { worker_running := true, pktq := [] }) =
      cancel_recv { worker_running := true, pktq := [] } ∧
    (cancel_recv { worker_running := true, pktq := [] }).worker_running = false ∧
    (cancel_recv { worker_running := true, pktq := [] }).pktq = [QItem.sentinel] := by
  have h0 := c7_cancel_idempotent { worker_running := false, pktq := [] }
  have h1 := c7_cancel_idempotent { worker_running := true, pktq := [] }
  exact ⟨h0.1 rfl, h1.2.1, (h1.2.2 rfl).1, (h1.2.2 rfl).2⟩

/-- C8: MAC filtering in the worker loop: with a configured 6-byte
filter, an advertisement whose non-null address equals the filter is
enqueued and one whose address differs is dropped; an advertisement with
a null address, any message when no filter is configured, and any
non-advertisement message (including a RawPacket forwarded after a
decode failure) are never dropped by MAC filtering. -/
theorem c8_mac_filter (decode : RawPacket → Except Unit DMsg) (mac6 : List ℕ)
    (p : RawPacket) (a : List ℕ) (m : DMsg) (tag : ℕ)
    (hlen : mac6.length = 6) :
    (decode p = Except.ok (DMsg.advert (some a)) → a = mac6 →
      worker_handle decode (some mac6) (some p) = [QItem.decoded (DMsg.advert (some a))]) ∧
    (decode p = Except.ok (DMsg.advert (some a)) → a ≠ mac6 →
      worker_handle decode (some mac6) (some p) = []) ∧
    (decode p = Except.ok (DMsg.advert none) →
      worker_handle decode (some mac6) (some p) = [QItem.decoded (DMsg.advert none)]) ∧
    (∀ mo : Option (List ℕ), decode p = Except.ok (DMsg.nonAdvert tag) →
      worker_handle decode mo (some p) = [QItem.decoded (DMsg.nonAdvert tag)]) ∧
    (decode p = Except.ok m → worker_handle decode none (some p) = [QItem.decoded m]) ∧
    (∀ mo : Option (List ℕ), decode p = Except.error () →
      worker_handle decode mo (some p) = [QItem.raw p]) := by
  have hne : mac6 ≠ [] := by
    intro h
    rw [h] at hlen
    cases hlen
  refine ⟨?_, ?_, ?_, ?_, ?_, ?_⟩
  · intro hd ha
    simp [worker_handle, hd, ha]
  · intro hd ha
    simp [worker_handle, hd, hne, ha]
  · intro hd
    simp [worker_handle, hd]
  · intro mo hd
    cases mo <;> simp [worker_handle, hd]
  · intro hd
    rcases m with advA | t
    · rcases advA with _ | a2 <;> simp [worker_handle, hd]
    · simp [worker_handle, hd]
  · intro mo hd
    cases mo <;> simp [worker_handle, hd]

/-- C8 witness: a six-byte filter delivers the matching advertisement,
drops one differing in a single byte, and passes a null-address
advertisement, a filterless message and a non-advertisement. -/
theorem c8_mac_filter_witness :
    worker_handle (fun _ => Except.ok (DMsg.advert (some [1, 2, 3, 4, 5, 6])))
      (some [1, 2, 3, 4, 5, 6]) (some pktOk) =
      [QItem.decoded (DMsg.advert (some [1, 2, 3, 4, 5, 6]))] ∧
    worker_handle (fun _ => Except.ok (DMsg.advert (some [1, 2, 3, 4, 5, 7])))
      (some [1, 2, 3, 4, 5, 6]) (some pktOk) = [] ∧
    worker_handle (fun _ => Except.ok (DMsg.advert none))
      (some [1, 2, 3, 4, 5, 6]) (some pktOk) = [QItem.decoded (DMsg.advert none)] ∧
    worker_handle (fun _ => Except.ok (DMsg.nonAdvert 0))
      (some [1, 2, 3, 4, 5, 6]) (some pktOk) = [QItem.decoded (DMsg.nonAdvert 0)] ∧
    worker_handle (fun _ => Except.ok (DMsg.advert (some [1, 2, 3, 4, 5, 7])))
      none (some pktOk) = [QItem.decoded (DMsg.advert (some [1, 2, 3, 4, 5, 7]))] := by
  have h1 := c8_mac_filter (fun _ => Except.ok (DMsg.advert (some [1, 2, 3, 4, 5, 6])))
    [1, 2, 3, 4, 5, 6] pktOk [1, 2, 3, 4, 5, 6] (DMsg.advert (some [1, 2, 3, 4, 5, 6])) 0 rfl
  have h2 := c8_mac_filter (fun _ => Except.ok (DMsg.advert (some [1, 2, 3, 4, 5, 7])))
    [1, 2, 3, 4, 5, 6] pktOk [1, 2, 3, 4, 5, 7] (DMsg.advert (some [1, 2, 3, 4, 5, 7])) 0 rfl
  have h3 := c8_mac_filter (fun _ => Except.ok (DMsg.advert none))
    [1, 2, 3, 4, 5, 6] pktOk [] (DMsg.advert none) 0 rfl
  have h4 := c8_mac_filter (fun _ => Except.ok (DMsg.nonAdvert 0))
    [1, 2, 3, 4, 5, 6] pktOk [] (DMsg.nonAdvert 0) 0 rfl
  exact ⟨h1.1 rfl rfl, h2.2.1 rfl (by decide), h3.2.2.1 rfl,
    (h4.2.2.2.1 (some [1, 2, 3, 4, 5, 6])) rfl, h2.2.2.2.2.1 rfl⟩

theorem foldl_append_eq_flatten {β γ : Type} (f : β → List γ) (l : List β)
    (acc : List γ) :
    l.foldl (fun a b => a ++ f b) acc = acc ++ (l.map f).flatten := by
  induction l generalizing acc with
  | nil => simp
  | cons b l ih => simp [ih, List.append_assoc]

/-- C9: when the external stateful decoder fails on a RawPacket produced
by the burst pipeline, the worker loop forwards the RawPacket unchanged
onto the queue instead of dropping it, and the burst loop structurally
processes every burst of the buffer independently, so a decode failure
never terminates it. -/
theorem c9_decode_failure_forwards {α : Type} (env : Env α)
    (decode : RawPacket → Except Unit DMsg) (s : SState) (c : ℕ) (t0 : ℚ)
    (bursts : List (ℕ × List α)) (fs cfo : ℚ) (p : RawPacket)
    (hfail : decode p = Except.error ()) :
    worker_handle decode s.mac (some p) = [QItem.raw p] ∧
    worker_bursts env decode s c t0 bursts fs cfo =
      (bursts.map (fun sb =>
        worker_burst env decode s c (t0 + (sb.1 : ℚ) / fs) sb.2 fs cfo)).flatten := by
  constructor
  · rcases hm : s.mac with _ | mb <;> simp [worker_handle, hfail, hm]
  · rw [worker_bursts]
    rw [foldl_append_eq_flatten
      (fun sb => worker_burst env decode s c (t0 + (sb.1 : ℚ) / fs) sb.2 fs cfo) bursts []]
    rfl

/-- C9 witness: with an always-failing decoder and the success fixture,
the packet is forwarded raw, and a two-burst buffer yields both raw
packets in order. -/
theorem c9_decode_failure_forwards_witness :
    worker_handle decodeFail sOk.mac (some pktOk) = [QItem.raw pktOk] ∧
    worker_bursts envOk decodeFail sOk 37 0 [(0, []), (0, [])] 4000000 0 =
      [QItem.raw pktOk, QItem.raw pktOk] := by
  have h := c9_decode_failure_forwards envOk decodeFail sOk 37 0
    [(0, []), (0, [])] 4000000 0 pktOk rfl
  refine ⟨h.1, ?_⟩
  rw [h.2]
  have hb : worker_burst envOk decodeFail sOk 37 (0 + (0 : ℚ) / 4000000) [] 4000000 0 =
      [QItem.raw pktOk] := by
    rw [worker_burst]
    have hp : process_burst envOk sOk 37 (0 + (0 : ℚ) / 4000000) ([] : List Unit) 4000000 0 =
        some pktOk := by decide
    rw [hp]
    rfl
  simp only [List.map, List.flatten, hb]
  rfl

/-- C6: every configuration operation rejects invalid input synchronously
with the session state unchanged (each error carries the state held at
raise time, which equals the input state): cmd_chan_aa_phy rejects a
channel outside 0..39 or a PHY outside the four defined modes;
cmd_mac rejects a filter that is not exactly 6 bytes; setup_sniffer
rejects an unrecognized mode, a non-wideband channel outside 37..39,
both MAC and IRK filters, hop-by-three without a target, and coded PHY
without extended advertising. -/
theorem c6_config_rejection (s : SState) (chan : ℤ) (aa : ℕ) (phy : ℤ) (crci : ℕ)
    (m : List ℕ) (uc : Bool) (a : SnifferArgs) :
    (¬(0 ≤ chan ∧ chan ≤ 39) →
      cmd_chan_aa_phy s chan aa phy crci =
        Except.error (CfgErr.valueError "Channel must be between 0 and 39", s)) ∧
    ((0 ≤ chan ∧ chan ≤ 39) → ¬(PHY_1M ≤ phy ∧ phy ≤ PHY_CODED_S2) →
      cmd_chan_aa_phy s chan aa phy crci =
        Except.error (CfgErr.valueError "PHY must be one of the four defined modes", s)) ∧
    (m.length ≠ 6 →
      cmd_mac s (some m) = Except.error (CfgErr.valueError "MAC must be 6 bytes", s)) ∧
    (a.mode ∉ snifferModes →
      setup_sniffer s uc a = Except.error (CfgErr.valueError "Invalid mode requested", s)) ∧
    (a.mode ∈ snifferModes → uc = false → ¬(37 ≤ a.chan ∧ a.chan ≤ 39) →
      setup_sniffer s uc a =
        Except.error (CfgErr.valueError "Invalid primary advertising channel", s)) ∧
    (a.mode ∈ snifferModes → (uc = true ∨ (37 ≤ a.chan ∧ a.chan ≤ 39)) →
      bytesTruthy a.targ_mac = true → bytesTruthy a.targ_irk = true →
      setup_sniffer s uc a =
        Except.error (CfgErr.usageError "Cannot specify both target MAC and IRK", s)) ∧
    (a.mode ∈ snifferModes → (uc = true ∨ (37 ≤ a.chan ∧ a.chan ≤ 39)) →
      a.hop3 = true → bytesTruthy a.targ_mac = false → bytesTruthy a.targ_irk = false →
      setup_sniffer s uc a =
        Except.error
          (CfgErr.usageError "Must specify a target for advertising channel hop", s)) ∧
    (a.mode ∈ snifferModes → (uc = true ∨ (37 ≤ a.chan ∧ a.chan ≤ 39)) →
      ¬(bytesTruthy a.targ_mac = true ∧ bytesTruthy a.targ_irk = true) →
      ¬(a.hop3 = true ∧ ¬(bytesTruthy a.targ_mac = true ∨ bytesTruthy a.targ_irk = true)) →
      a.coded_phy = true → a.ext_adv = false →
      setup_sniffer s uc a =
        Except.error (CfgErr.usageError "Extended advertising needed for coded PHY", s)) := by
  refine ⟨?_, ?_, ?_, ?_, ?_, ?_, ?_, ?_⟩
  · intro h
    simp [cmd_chan_aa_phy, h]
  · intro h1 h2
    simp [cmd_chan_aa_phy, h1, h2]
  · intro h
    simp [cmd_mac, h]
  · intro h
    simp [setup_sniffer, h]
  · intro hm huc hr
    subst huc
    simp [setup_sniffer, hm, hr]
  · intro hm hor h1 h2
    have hnotfirst : ¬(¬uc = true ∧ ¬(37 ≤ a.chan ∧ a.chan ≤ 39)) := by
      rcases hor with h | h
      · exact fun hc => hc.1 h
      · exact fun hc => hc.2 h
    simp only [setup_sniffer]
    rw [if_neg (not_not_intro hm), if_neg hnotfirst, if_pos ⟨h1, h2⟩]
  · intro hm hor hh h1 h2
    have hnotfirst : ¬(¬uc = true ∧ ¬(37 ≤ a.chan ∧ a.chan ≤ 39)) := by
      rcases hor with h | h
      · exact fun hc => hc.1 h
      · exact fun hc => hc.2 h
    have hno_mi : ¬(bytesTruthy a.targ_mac = true ∧ bytesTruthy a.targ_irk = true) := by
      rw [h1]
      exact fun hc => nomatch hc.1
    have hpos : a.hop3 = true ∧
        ¬(bytesTruthy a.targ_mac = true ∨ bytesTruthy a.targ_irk = true) := by
      refine ⟨hh, ?_⟩
      rw [h1, h2]
      rintro (hx | hx) <;> exact nomatch hx
    simp only [setup_sniffer]
    rw [if_neg (not_not_intro hm), if_neg hnotfirst, if_neg hno_mi, if_pos hpos]
  · intro hm hor hmac hhop hc he
    have hnotfirst : ¬(¬uc = true ∧ ¬(37 ≤ a.chan ∧ a.chan ≤ 39)) := by
      rcases hor with h | h
      · exact fun hc2 => hc2.1 h
      · exact fun hc2 => hc2.2 h
    have hpos : a.coded_phy = true ∧ ¬a.ext_adv = true := by
      refine ⟨hc, ?_⟩
      rw [he]
      exact fun hx => nomatch hx
    simp only [setup_sniffer]
    rw [if_neg (not_not_intro hm), if_neg hnotfirst, if_neg hmac, if_neg hhop, if_pos hpos]

/-- C6 witness: each rejecting case at a concrete input leaves the
carried session state equal to the input state. -/
theorem c6_config_rejection_witness :
    cmd_chan_aa_phy sOk 40 BLE_ADV_AA 0 BLE_ADV_CRCI =
      Except.error (CfgErr.valueError "Channel must be between 0 and 39", sOk) ∧
    cmd_chan_aa_phy sOk 37 BLE_ADV_AA 5 BLE_ADV_CRCI =
      Except.error (CfgErr.valueError "PHY must be one of the four defined modes", sOk) ∧
    cmd_mac sOk (some [1, 2, 3]) =
      Except.error (CfgErr.valueError "MAC must be 6 bytes", sOk) ∧
    setup_sniffer sOk false { aBase with mode := 7 } =
      Except.error (CfgErr.valueError "Invalid mode requested", sOk) ∧
    setup_sniffer sOk false { aBase with chan := 5 } =
      Except.error (CfgErr.valueError "Invalid primary advertising channel", sOk) ∧
    setup_sniffer sOk false
        { aBase with targ_mac := some [1, 2, 3, 4, 5, 6], targ_irk := some [9] } =
      Except.error (CfgErr.usageError "Cannot specify both target MAC and IRK", sOk) ∧
    setup_sniffer sOk false { aBase with hop3 := true } =
      Except.error
        (CfgErr.usageError "Must specify a target for advertising channel hop", sOk) ∧
    setup_sniffer sOk false { aBase with coded_phy := true } =
      Except.error (CfgErr.usageError "Extended advertising needed for coded PHY", sOk) := by
  have h1 := c6_config_rejection sOk 40 BLE_ADV_AA 0 BLE_ADV_CRCI [1, 2, 3] false aBase
  have h2 := c6_config_rejection sOk 37 BLE_ADV_AA 5 BLE_ADV_CRCI [1, 2, 3] false aBase
  have h4 := c6_config_rejection sOk 37 BLE_ADV_AA 0 BLE_ADV_CRCI [1, 2, 3] false
    { aBase with mode := 7 }
  have h5 := c6_config_rejection sOk 37 BLE_ADV_AA 0 BLE_ADV_CRCI [1, 2, 3] false
    { aBase with chan := 5 }
  have h6 := c6_config_rejection sOk 37 BLE_ADV_AA 0 BLE_ADV_CRCI [1, 2, 3] false
    { aBase with targ_mac := some [1, 2, 3, 4, 5, 6], targ_irk := some [9] }
  have h7 := c6_config_rejection sOk 37 BLE_ADV_AA 0 BLE_ADV_CRCI [1, 2, 3] false
    { aBase with hop3 := true }
  have h8 := c6_config_rejection sOk 37 BLE_ADV_AA 0 BLE_ADV_CRCI [1, 2, 3] false
    { aBase with coded_phy := true }
  refine ⟨h1.1 (by decide), h2.2.1 (by decide) (by decide), h1.2.2.1 (by decide),
    h4.2.2.2.1 (by decide), h5.2.2.2.2.1 (by decide) rfl (by decide),
    h6.2.2.2.2.2.1 (by decide) (Or.inr (by decide)) rfl rfl,
    h7.2.2.2.2.2.2.1 (by decide) (Or.inr (by decide)) rfl rfl rfl,
    h8.2.2.2.2.2.2.2 (by decide) (Or.inr (by decide)) (by decide) (by decide) rfl rfl⟩

theorem rf_to_ble_chan_inj :
    ∀ x, x < 40 → ∀ y, y < 40 → rf_to_ble_chan x = rf_to_ble_chan y → x = y := by
  decide

theorem relOffsets_nodup (fs : ℚ) : (relOffsets fs).Nodup := by
  have hf : Function.Injective (fun k : ℕ => (k : ℤ) - chanMax fs) := by
    intro x y hxy
    have hxy2 : (x : ℤ) - chanMax fs = (y : ℤ) - chanMax fs := hxy
    omega
  exact List.Nodup.map hf (List.nodup_range _)

theorem relOffsets_mem (fs : ℚ) (r : ℤ) :
    r ∈ relOffsets fs ↔ -(chanMax fs) ≤ r ∧ r ≤ chanMax fs := by
  unfold relOffsets
  simp only [List.mem_map, List.mem_range]
  constructor
  · rintro ⟨k, hk, hkr⟩
    have hkr2 : (k : ℤ) - chanMax fs = r := hkr
    omega
  · rintro ⟨h1, h2⟩
    refine ⟨(r + chanMax fs).toNat, by omega, ?_⟩
    exact (by omega : ((r + chanMax fs).toNat : ℤ) - chanMax fs = r)

theorem chanPlan_foldl_untouched (chanIdx : ℤ → ℕ) (rfc : ℕ) (ce : ℚ)
    (l : List ℤ) (st : List (Option ℕ) × List ℚ) (i : ℕ)
    (h : ∀ r ∈ l, chanIdx r ≠ i) :
    ((l.foldl (chanPlanStep chanIdx rfc ce) st).1[i]? = st.1[i]?) ∧
    ((l.foldl (chanPlanStep chanIdx rfc ce) st).2[i]? = st.2[i]?) := by
  induction l generalizing st with
  | nil => exact ⟨rfl, rfl⟩
  | cons r l ih =>
    have hr := h r (List.mem_cons_self r l)
    have hrest : ∀ x ∈ l, chanIdx x ≠ i := fun x hx => h x (List.mem_cons_of_mem r hx)
    have hstep : ((chanPlanStep chanIdx rfc ce st r).1[i]? = st.1[i]?) ∧
        ((chanPlanStep chanIdx rfc ce st r).2[i]? = st.2[i]?) := by
      simp only [chanPlanStep]
      split
      · exact ⟨List.getElem?_set_ne hr, List.getElem?_set_ne hr⟩
      · exact ⟨rfl, rfl⟩
    have hl := ih (chanPlanStep chanIdx rfc ce st r) hrest
    exact ⟨hl.1.trans hstep.1, hl.2.trans hstep.2⟩

theorem chanPlan_foldl_write (chanIdx : ℤ → ℕ) (rfc : ℕ) (ce : ℚ)
    (l : List ℤ) (st : List (Option ℕ) × List ℚ) (r : ℤ)
    (hmem : r ∈ l) (hnd : l.Nodup)
    (hinj : ∀ x ∈ l, chanIdx x = chanIdx r → x = r)
    (hlen1 : chanIdx r < st.1.length) (hlen2 : chanIdx r < st.2.length) :
    (0 ≤ (rfc : ℤ) + r ∧ (rfc : ℤ) + r < 40 →
      (l.foldl (chanPlanStep chanIdx rfc ce) st).1[chanIdx r]? =
        some (some (rf_to_ble_chan ((rfc : ℤ) + r).toNat)) ∧
      (l.foldl (chanPlanStep chanIdx rfc ce) st).2[chanIdx r]? = some (-r * ce)) ∧
    (¬(0 ≤ (rfc : ℤ) + r ∧ (rfc : ℤ) + r < 40) →
      (l.foldl (chanPlanStep chanIdx rfc ce) st).1[chanIdx r]? = st.1[chanIdx r]? ∧
      (l.foldl (chanPlanStep chanIdx rfc ce) st).2[chanIdx r]? = st.2[chanIdx r]?) := by
  induction l generalizing st with
  | nil => cases hmem
  | cons r0 l ih =>
    rcases List.mem_cons.mp hmem with heq | hmem2
    · subst heq
      have hrest : ∀ x ∈ l, chanIdx x ≠ chanIdx r := by
        intro x hx hcx
        have hxr := hinj x (List.mem_cons_of_mem r hx) hcx
        subst hxr
        exact (List.nodup_cons.mp hnd).1 hx
      have hun := chanPlan_foldl_untouched chanIdx rfc ce l
        (chanPlanStep chanIdx rfc ce st r) (chanIdx r) hrest
      constructor
      · intro hin
        refine ⟨hun.1.trans ?_, hun.2.trans ?_⟩
        · simp only [chanPlanStep]
          rw [if_pos hin]
          exact List.getElem?_set_eq_of_lt _ hlen1
        · simp only [chanPlanStep]
          rw [if_pos hin]
          exact List.getElem?_set_eq_of_lt _ hlen2
      · intro hout
        refine ⟨hun.1.trans ?_, hun.2.trans ?_⟩
        · simp only [chanPlanStep]
          rw [if_neg hout]
        · simp only [chanPlanStep]
          rw [if_neg hout]
    · have hd : chanIdx r0 ≠ chanIdx r := by
        intro hcx
        have hr0 := hinj r0 (List.mem_cons_self r0 l) hcx
        subst hr0
        exact (List.nodup_cons.mp hnd).1 hmem2
      have hstep : (chanPlanStep chanIdx rfc ce st r0).1.length = st.1.length ∧
          (chanPlanStep chanIdx rfc ce st r0).2.length = st.2.length := by
        simp only [chanPlanStep]
        split <;> simp
      have hih := ih (chanPlanStep chanIdx rfc ce st r0) hmem2 (List.nodup_cons.mp hnd).2
        (fun x hx => hinj x (List.mem_cons_of_mem r0 hx))
        (by rw [hstep.1]; exact hlen1) (by rw [hstep.2]; exact hlen2)
      have hsame : (chanPlanStep chanIdx rfc ce st r0).1[chanIdx r]? = st.1[chanIdx r]? ∧
          (chanPlanStep chanIdx rfc ce st r0).2[chanIdx r]? = st.2[chanIdx r]? := by
        simp only [chanPlanStep]
        split
        · exact ⟨List.getElem?_set_ne hd, List.getElem?_set_ne hd⟩
        · exact ⟨rfl, rfl⟩
      constructor
      · intro hin
        exact hih.1 hin
      · intro hout
        have h2 := hih.2 hout
        exact ⟨h2.1.trans hsame.1, h2.2.trans hsame.2⟩

theorem chanPlan_foldl_some (chanIdx : ℤ → ℕ) (rfc : ℕ) (ce : ℚ)
    (l : List ℤ) (st : List (Option ℕ) × List ℚ) (i : ℕ) (b : ℕ)
    (h : (l.foldl (chanPlanStep chanIdx rfc ce) st).1[i]? = some (some b)) :
    (∃ r ∈ l, chanIdx r = i ∧ 0 ≤ (rfc : ℤ) + r ∧ (rfc : ℤ) + r < 40 ∧
      b = rf_to_ble_chan ((rfc : ℤ) + r).toNat) ∨ st.1[i]? = some (some b) := by
  induction l generalizing st with
  | nil => exact Or.inr h
  | cons r0 l ih =>
    rcases ih (chanPlanStep chanIdx rfc ce st r0) h with ⟨r, hr, hrest⟩ | hst
    · exact Or.inl ⟨r, List.mem_cons_of_mem r0 hr, hrest⟩
    · simp only [chanPlanStep] at hst
      by_cases hin : 0 ≤ (rfc : ℤ) + r0 ∧ (rfc : ℤ) + r0 < 40
      · rw [if_pos hin] at hst
        by_cases hix : chanIdx r0 = i
        · subst hix
          rcases Nat.lt_or_ge (chanIdx r0) st.1.length with hlt | hge
          · rw [List.getElem?_set_eq_of_lt _ hlt] at hst
            simp only [Option.some.injEq] at hst
            exact Or.inl ⟨r0, List.mem_cons_self r0 l, rfl, hin.1, hin.2, hst.symm⟩
          · rw [List.getElem?_eq_none (by simpa using hge)] at hst
            cases hst
        · rw [List.getElem?_set_ne hix] at hst
          exact Or.inr hst
      · rw [if_neg hin] at hst
        exact Or.inr hst

/-- C5: in wideband mode the plan uses round(fs / 2 MHz) channels with
per-channel error fs/N - 2 MHz; each relative offset r in the symmetric
range maps its channelizer output index to the BLE channel of absolute RF
index RF(chan) + r with CFO correction -r * chan_err when that RF index
is within 0..39, and that output index stays unused otherwise; and each
BLE channel is assigned to at most one output index.  The channelizer
index map chanIdx is assumed to land inside the plan arrays and to be
injective on the offset range, as the polyphase channelizer output
indexing is. -/
theorem c5_channel_plan (chanIdx : ℤ → ℕ) (fs : ℚ) (chan : ℕ)
    (hfs : 0 ≤ fs)
    (hidx : ∀ r ∈ relOffsets fs, chanIdx r < numChannels fs)
    (hinj : ∀ r1 ∈ relOffsets fs, ∀ r2 ∈ relOffsets fs, chanIdx r1 = chanIdx r2 → r1 = r2) :
    ((numChannels fs : ℤ) = round (fs / 2000000)) ∧
    chanErr fs = fs / (numChannels fs : ℚ) - 2000000 ∧
    (∀ r : ℤ, r ∈ relOffsets fs ↔ -(chanMax fs) ≤ r ∧ r ≤ chanMax fs) ∧
    (∀ r ∈ relOffsets fs,
      (0 ≤ (ble_to_rf_chan chan : ℤ) + r ∧ (ble_to_rf_chan chan : ℤ) + r < 40 →
        (chanPlan chanIdx fs chan).1[chanIdx r]? =
          some (some (rf_to_ble_chan (((ble_to_rf_chan chan : ℤ) + r).toNat))) ∧
        (chanPlan chanIdx fs chan).2[chanIdx r]? = some (-r * chanErr fs)) ∧
      (¬(0 ≤ (ble_to_rf_chan chan : ℤ) + r ∧ (ble_to_rf_chan chan : ℤ) + r < 40) →
        (chanPlan chanIdx fs chan).1[chanIdx r]? = some none)) ∧
    (∀ i j b : ℕ, (chanPlan chanIdx fs chan).1[i]? = some (some b) →
      (chanPlan chanIdx fs chan).1[j]? = some (some b) → i = j) := by
  have hfloor : ∀ q : ℚ, q.floor = ⌊q⌋ := fun q => (Rat.floor_def' q).trans Rat.floor_def.symm
  refine ⟨?_, rfl, relOffsets_mem fs, ?_, ?_⟩
  · have h0 : (0 : ℚ) ≤ fs / 2000000 + 1 / 2 := by positivity
    have hnn : 0 ≤ ⌊fs / 2000000 + 1 / 2⌋ := Int.floor_nonneg.mpr h0
    rw [numChannels, hfloor]
    rw [Int.toNat_of_nonneg hnn, round_eq]
  · intro r hr
    have hw := chanPlan_foldl_write chanIdx (ble_to_rf_chan chan) (chanErr fs)
      (relOffsets fs)
      (List.replicate (numChannels fs) none, List.replicate (numChannels fs) (0 : ℚ))
      r hr (relOffsets_nodup fs)
      (fun x hx hcx => hinj x hx r hr hcx)
      (by simpa using hidx r hr) (by simpa using hidx r hr)
    constructor
    · intro hin
      exact (hw.1 hin)
    · intro hout
      have h2 := (hw.2 hout).1
      rw [chanPlan]
      rw [h2]
      simp [List.getElem?_replicate, hidx r hr]
  · intro i j b h1 h2
    rw [chanPlan] at h1 h2
    have hp1 := chanPlan_foldl_some chanIdx (ble_to_rf_chan chan) (chanErr fs)
      (relOffsets fs)
      (List.replicate (numChannels fs) none, List.replicate (numChannels fs) (0 : ℚ)) i b h1
    have hp2 := chanPlan_foldl_some chanIdx (ble_to_rf_chan chan) (chanErr fs)
      (relOffsets fs)
      (List.replicate (numChannels fs) none, List.replicate (numChannels fs) (0 : ℚ)) j b h2
    rcases hp1 with ⟨r1, hr1, hc1, hn1, hl1, hb1⟩ | hbad
    · rcases hp2 with ⟨r2, hr2, hc2, hn2, hl2, hb2⟩ | hbad
      · have hlt1 : ((ble_to_rf_chan chan : ℤ) + r1).toNat < 40 := by omega
        have hlt2 : ((ble_to_rf_chan chan : ℤ) + r2).toNat < 40 := by omega
        have heqn := rf_to_ble_chan_inj _ hlt1 _ hlt2 (hb1.symm.trans hb2)
        have hr12 : r1 = r2 := by omega
        rw [← hc1, ← hc2, hr12]
      · rw [List.getElem?_eq_some] at hbad
        rcases hbad with ⟨hj, hv⟩
        rw [List.getElem_replicate] at hv
        cases hv
    · rw [List.getElem?_eq_some] at hbad
      rcases hbad with ⟨hj, hv⟩
      rw [List.getElem_replicate] at hv
      cases hv

/-- C5 witness: a 6 MHz capture around BLE channel 17 yields a 3-channel
plan whose offsets -1, 0, 1 assign BLE channels 17, 18 and 16 to output
indices 0, 1 and 2 respectively, each to at most one index. -/
theorem c5_channel_plan_witness :
    numChannels 6000000 = 3 ∧
    relOffsets 6000000 = [-1, 0, 1] ∧
    (chanPlan wIdx 6000000 17).1 = [some 17, some 18, some 16] ∧
    (∀ i j b : ℕ, (chanPlan wIdx 6000000 17).1[i]? = some (some b) →
      (chanPlan wIdx 6000000 17).1[j]? = some (some b) → i = j) := by
  have h := c5_channel_plan wIdx 6000000 17 (by decide) (by decide) (by decide)
  exact ⟨by decide, by decide, by decide, h.2.2.2.2⟩

end Sniffle
